import Mathlib

/-!
Verification of the Linux backend of the `net-route` crate
(`src/platform_impl/linux.rs`): the netlink attribute translator
(`impl From<RouteMessage> for Route`, the request builders used by
`Handle::add`, `Handle::add_rules`, `Handle::delete_rules`), the
route operations (`delete`, `default_route`) and the broadcast
listen stream.

Kernel I/O is modelled by passing the kernel's behaviour explicitly:
listings become lists of wire messages in response order, and each
request execution becomes a function from the request message to an
`Except` outcome.  A function returning `Except.error` before any
message is produced models a local failure with no I/O performed.
-/

namespace NetRoute

/-- `std::net::IpAddr`: an IPv4 or IPv6 address, the numeric value of
the address carried as a `Nat`. -/
inductive IpAddr where
  | v4 (addr : Nat)
  | v6 (addr : Nat)
deriving DecidableEq, Repr

/-- True when the two addresses are of the same IP version. -/
def IpAddr.sameVersion : IpAddr → IpAddr → Bool
  | .v4 _, .v4 _ => true
  | .v6 _, .v6 _ => true
  | _, _ => false

/-- `rtnetlink::IpVersion`: the address family selector of a listing
request. -/
inductive IpVersion where
  | V4
  | V6
deriving DecidableEq, Repr

/-- The IP version of an address (used by `Handle::delete` and
`Handle::add` to dispatch on `route.destination`). -/
def IpAddr.version : IpAddr → IpVersion
  | .v4 _ => .V4
  | .v6 _ => .V6

/-- `netlink_packet_route::AddressFamily`: the declared family of a
route message header.  Families other than `Inet`/`Inet6` exist
(the Rust enum has many more variants); they are collapsed into
`other` with their numeric code. -/
inductive AddressFamily where
  | Inet
  | Inet6
  | other (code : Nat)
deriving DecidableEq, Repr

/-- `netlink_packet_route::route::RouteAddress`: the payload of an
address-valued route attribute.  Non-IP payloads (MPLS etc.) are
collapsed into `other`, matching the wildcard arm of `addr_to_ip`. -/
inductive RouteAddress where
  | Inet (addr : Nat)
  | Inet6 (addr : Nat)
  | other
deriving DecidableEq, Repr

/-- `fn addr_to_ip(addr: RouteAddress) -> Option<IpAddr>`. -/
def addr_to_ip : RouteAddress → Option IpAddr
  | .Inet addr => some (.v4 addr)
  | .Inet6 addr => some (.v6 addr)
  | .other => none

/-- `netlink_packet_route::route::RouteAttribute`: the typed optional
attributes of a route message.  Only the variants the translator
reads or writes are distinguished; the rest are `other` (ignored by
the wildcard arm of the decode loop). -/
inductive RouteAttribute where
  | Source (addr : RouteAddress)
  | PrefSource (addr : RouteAddress)
  | Destination (addr : RouteAddress)
  | Gateway (addr : RouteAddress)
  | Oif (ifindex : Nat)
  | Priority (priority : Nat)
  | Table (table : Nat)
  | other
deriving DecidableEq, Repr

/-- The fixed header of a `RouteMessage`: address family, prefix
lengths, and the 8-bit table field. -/
structure RouteHeader where
  address_family : AddressFamily
  destination_prefix_length : Nat
  source_prefix_length : Nat
  table : Nat
deriving DecidableEq, Repr

/-- `netlink_packet_route::route::RouteMessage`: header plus ordered
attribute list. -/
structure RouteMessage where
  header : RouteHeader
  attributes : List RouteAttribute
deriving DecidableEq, Repr

/-- `crate::Route` (the normalized route model; its fields are those
set and read by the Linux backend, per the crate-root definition the
spec describes). -/
structure Route where
  destination : IpAddr
  prefix_len : Nat
  source : Option IpAddr
  source_prefix_len : Nat
  source_hint : Option IpAddr
  gateway : Option IpAddr
  ifindex : Option Nat
  table : Nat
  metric : Option Nat
deriving DecidableEq, Repr

/-- The mutable decode state of `From<RouteMessage> for Route`: the
local variables of the attribute loop. -/
structure DecodeState where
  gateway : Option IpAddr
  source : Option IpAddr
  source_hint : Option IpAddr
  destination : Option IpAddr
  ifindex : Option Nat
  metric : Option Nat
  table : Nat
deriving DecidableEq, Repr

/-- One iteration of the `for attr in msg.attributes` loop of
`From<RouteMessage> for Route`.  Note that address-valued attributes
assign `addr_to_ip(addr)` (an `Option`) directly, so a later
non-IP-valued attribute resets the field to `none`. -/
def decodeStep (s : DecodeState) : RouteAttribute → DecodeState
  | .Source addr => { s with source := addr_to_ip addr }
  | .PrefSource addr => { s with source_hint := addr_to_ip addr }
  | .Destination addr => { s with destination := addr_to_ip addr }
  | .Gateway addr => { s with gateway := addr_to_ip addr }
  | .Oif i => { s with ifindex := some i }
  | .Priority priority => { s with metric := some priority }
  | .Table real_table => { s with table := real_table }
  | .other => s

/-- `impl From<RouteMessage> for Route`.  Returns `none` exactly on
the `panic!("invalid destination family")` path: no decodable
Destination attribute and a header family that is neither `Inet`
nor `Inet6`. -/
def routeFromWire (msg : RouteMessage) : Option Route :=
  let s := msg.attributes.foldl decodeStep
    { gateway := none, source := none, source_hint := none,
      destination := none, ifindex := none, metric := none,
      table := msg.header.table }
  match s.destination with
  | some destination =>
      some { destination,
             prefix_len := msg.header.destination_prefix_length,
             source := s.source,
             source_prefix_len := msg.header.source_prefix_length,
             source_hint := s.source_hint,
             gateway := s.gateway,
             ifindex := s.ifindex,
             table := s.table,
             metric := s.metric }
  | none =>
      match msg.header.address_family with
      | .Inet =>
          some { destination := .v4 0,
                 prefix_len := msg.header.destination_prefix_length,
                 source := s.source,
                 source_prefix_len := msg.header.source_prefix_length,
                 source_hint := s.source_hint,
                 gateway := s.gateway,
                 ifindex := s.ifindex,
                 table := s.table,
                 metric := s.metric }
      | .Inet6 =>
          some { destination := .v6 0,
                 prefix_len := msg.header.destination_prefix_length,
                 source := s.source,
                 source_prefix_len := msg.header.source_prefix_length,
                 source_hint := s.source_hint,
                 gateway := s.gateway,
                 ifindex := s.ifindex,
                 table := s.table,
                 metric := s.metric }
      | .other _ => none

/-- `RouteExt::destination_prefix` on `RouteMessage`: the first
Destination attribute whose payload decodes to an IP address, paired
with the header's destination prefix length. -/
def wireDestination (msg : RouteMessage) : Option (IpAddr × Nat) :=
  msg.attributes.findSome? fun attr =>
    match attr with
    | .Destination addr =>
        (addr_to_ip addr).map
          fun a => (a, msg.header.destination_prefix_length)
    | _ => none

/-- `std::io::Error`, restricted to the `ErrorKind`s the backend
produces: `InvalidInput` for local validation failures, `NotFound`
for `delete` misses, `Other` for wrapped kernel errors. -/
inductive IoError where
  | invalidInput (msg : String)
  | notFound (msg : String)
  | other (msg : String)
deriving DecidableEq, Repr

/-- Push one attribute onto a route message. -/
def pushAttr (msg : RouteMessage) (attr : RouteAttribute) : RouteMessage :=
  { msg with attributes := msg.attributes ++ [attr] }

/-- Modelled from the spec: the fresh route add request produced by
`rtnetlink`'s builder before any field is set (the builder crate is
not part of this repository).  The header table field starts at the
main table (254), the spec's "default main table". -/
def emptyAddRequest (family : AddressFamily) : RouteMessage :=
  { header := { address_family := family,
                destination_prefix_length := 0,
                source_prefix_length := 0,
                table := 254 },
    attributes := [] }

/-- Modelled from the spec: `rtnetlink`'s `table_id` builder.  Values
that fit the 8-bit header field are stored there; larger values are
carried as a Table attribute ("some tables exceed the header's 8-bit
field and must be carried as an attribute"). -/
def setTableId (msg : RouteMessage) (table : Nat) : RouteMessage :=
  if table > 255 then pushAttr msg (.Table table)
  else { msg with header := { msg.header with table := table } }

/-- Modelled from the spec: `rtnetlink`'s `destination_prefix`
builder — sets the header's destination prefix length and pushes a
Destination attribute. -/
def setDestination (msg : RouteMessage) (addr : RouteAddress)
    (len : Nat) : RouteMessage :=
  pushAttr
    { msg with header := { msg.header with destination_prefix_length := len } }
    (.Destination addr)

/-- Modelled from the spec: `rtnetlink`'s `source_prefix` builder —
sets the header's source prefix length and pushes a Source
attribute. -/
def setSource (msg : RouteMessage) (addr : RouteAddress)
    (len : Nat) : RouteMessage :=
  pushAttr
    { msg with header := { msg.header with source_prefix_length := len } }
    (.Source addr)

/-- `Handle::add`: family dispatch on `route.destination`, request
construction in source order (table, destination, egress interface,
metric, gateway, preferred source, source prefix), returning the
built wire request, or an `InvalidInput` error — before the request
is produced, hence before any I/O — when `gateway`, `source_hint`
or `source` does not share the destination's IP version.  Executing
the request against the kernel is outside this pure model. -/
def Handle.add (route : Route) : Except IoError RouteMessage := do
  match route.destination with
  | .v4 addr =>
      let msg := setDestination (setTableId (emptyAddRequest .Inet) route.table)
        (.Inet addr) route.prefix_len
      let msg := match route.ifindex with
        | some ifindex => pushAttr msg (.Oif ifindex)
        | none => msg
      let msg := match route.metric with
        | some metric => pushAttr msg (.Priority metric)
        | none => msg
      let msg ← match route.gateway with
        | none => pure msg
        | some (.v4 a) => pure (pushAttr msg (.Gateway (.Inet a)))
        | some (.v6 _) =>
            Except.error (.invalidInput "gateway version must match destination")
      let msg ← match route.source_hint with
        | none => pure msg
        | some (.v4 a) => pure (pushAttr msg (.PrefSource (.Inet a)))
        | some (.v6 _) =>
            Except.error (.invalidInput "source hint version must match destination")
      let msg ← match route.source with
        | none => pure msg
        | some (.v4 a) => pure (setSource msg (.Inet a) route.source_prefix_len)
        | some (.v6 _) =>
            Except.error (.invalidInput "source version must match destination")
      pure msg
  | .v6 addr =>
      let msg := setDestination (setTableId (emptyAddRequest .Inet6) route.table)
        (.Inet6 addr) route.prefix_len
      let msg := match route.ifindex with
        | some ifindex => pushAttr msg (.Oif ifindex)
        | none => msg
      let msg := match route.metric with
        | some metric => pushAttr msg (.Priority metric)
        | none => msg
      let msg ← match route.gateway with
        | none => pure msg
        | some (.v6 a) => pure (pushAttr msg (.Gateway (.Inet6 a)))
        | some (.v4 _) =>
            Except.error (.invalidInput "gateway version must match destination")
      let msg ← match route.source_hint with
        | none => pure msg
        | some (.v6 a) => pure (pushAttr msg (.PrefSource (.Inet6 a)))
        | some (.v4 _) =>
            Except.error (.invalidInput "source hint version must match destination")
      let msg ← match route.source with
        | none => pure msg
        | some (.v6 a) => pure (setSource msg (.Inet6 a) route.source_prefix_len)
        | some (.v4 _) =>
            Except.error (.invalidInput "source version must match destination")
      pure msg

/-- Outcome of `Handle::delete`'s scan over the listed routes:
`deleted msg` replays the full wire message `msg` back as a delete
request and the call returns `Ok(())`; `notFound` is the final
`ErrorKind::NotFound`; `panicked` marks a scanned message whose
`From<RouteMessage> for Route` conversion panics. -/
inductive DeleteResult where
  | deleted (msg : RouteMessage)
  | notFound
  | panicked
deriving DecidableEq, Repr

/-- The `while let Some(msg) = routes.try_next()` scan of
`Handle::delete`: decode each listed message in response order and
delete the first whose `(destination, prefix, metric)` triple equals
the input's. -/
def deleteScan (route : Route) : List RouteMessage → DeleteResult
  | [] => .notFound
  | msg :: rest =>
      match routeFromWire msg with
      | none => .panicked
      | some other_route =>
          if other_route.destination = route.destination ∧
             other_route.prefix_len = route.prefix_len ∧
             other_route.metric = route.metric then
            .deleted msg
          else
            deleteScan route rest

/-- `Handle::delete`: lists the routes of `route.destination`'s own
family (the kernel's response is the function `kernel`) and scans
them. -/
def Handle.delete (kernel : IpVersion → List RouteMessage)
    (route : Route) : DeleteResult :=
  deleteScan route (kernel route.destination.version)

/-- `Handle::default_route`: scan the V4 listing then the V6 listing
for the first message whose `destination_prefix()` is `None`, and
return its decoded Route; `some none` is `Ok(None)` when no such
message exists, and the outer `none` marks a panic of the decode of
the selected message. -/
def Handle.default_route (v4msgs v6msgs : List RouteMessage) :
    Option (Option Route) :=
  match v4msgs.find? (fun m => (wireDestination m).isNone) with
  | some m => (routeFromWire m).map some
  | none =>
      match v6msgs.find? (fun m => (wireDestination m).isNone) with
      | some m => (routeFromWire m).map some
      | none => some none

/-- `crate::Rule` (the normalized policy rule; fields are those the
Linux backend reads, per the crate-root definition the spec
describes — the raw decoded attribute list used only for listing is
omitted, and the IP protocol is carried by its numeric code). -/
structure Rule where
  src : Option (IpAddr × Nat)
  dst : Option (IpAddr × Nat)
  input_interface : Option String
  output_interface : Option String
  table_id : Option Nat
  priority : Option Nat
  fw_mark_mask : Option (Nat × Nat)
  suppress_prefixlength : Option Nat
  protocol : Option Nat
  v6 : Bool
deriving DecidableEq, Repr

/-- `netlink_packet_route::rule::RuleAction` (only the variants in
play). -/
inductive RuleAction where
  | Unspec
  | ToTable
deriving DecidableEq, Repr

/-- `netlink_packet_route::rule::RuleAttribute`, restricted to the
variants the backend writes. -/
inductive RuleAttr where
  | Source (addr : IpAddr)
  | Destination (addr : IpAddr)
  | Iifname (name : String)
  | Oifname (name : String)
  | Table (id : Nat)
  | Priority (p : Nat)
  | FwMark (mark : Nat)
  | FwMask (mask : Nat)
  | SuppressPrefixLen (len : Nat)
  | IpProtocol (proto : Nat)
deriving DecidableEq, Repr

/-- The header of a `RuleMessage`: family, prefix lengths of the
src/dst match criteria, and the action. -/
structure RuleHeader where
  family : AddressFamily
  src_len : Nat
  dst_len : Nat
  action : RuleAction
deriving DecidableEq, Repr

/-- `netlink_packet_route::rule::RuleMessage`.  `RuleMessage::default()`
has the unspecified family (code 0), zero prefix lengths and the
unspecified action. -/
structure RuleMessage where
  header : RuleHeader
  attributes : List RuleAttr
deriving DecidableEq, Repr

/-- `RuleMessage::default()`. -/
def RuleMessage.default : RuleMessage :=
  { header := { family := .other 0, src_len := 0, dst_len := 0,
                action := .Unspec },
    attributes := [] }

/-- Push one attribute onto a rule message. -/
def pushRuleAttr (msg : RuleMessage) (attr : RuleAttr) : RuleMessage :=
  { msg with attributes := msg.attributes ++ [attr] }

/-- The delete request `Handle::delete_rules` builds for one rule,
field by field in source order, starting from `RuleMessage::default()`
with the action forced to `ToTable`. -/
def ruleToDelMessage (rule : Rule) : RuleMessage :=
  let msg := { RuleMessage.default with
               header := { RuleMessage.default.header with action := .ToTable } }
  let msg := match rule.src with
    | some (addr, len) =>
        { pushRuleAttr msg (.Source addr) with
          header := { (pushRuleAttr msg (.Source addr)).header with src_len := len } }
    | none => msg
  let msg := match rule.dst with
    | some (addr, len) =>
        { pushRuleAttr msg (.Destination addr) with
          header := { (pushRuleAttr msg (.Destination addr)).header with dst_len := len } }
    | none => msg
  let msg := match rule.input_interface with
    | some ifname => pushRuleAttr msg (.Iifname ifname)
    | none => msg
  let msg := match rule.output_interface with
    | some ifname => pushRuleAttr msg (.Oifname ifname)
    | none => msg
  let msg := match rule.table_id with
    | some table_id => pushRuleAttr msg (.Table table_id)
    | none => msg
  let msg := match rule.priority with
    | some priority => pushRuleAttr msg (.Priority priority)
    | none => msg
  let msg := match rule.fw_mark_mask with
    | some (fw_mark, fw_mask) =>
        pushRuleAttr (pushRuleAttr msg (.FwMark fw_mark)) (.FwMask fw_mask)
    | none => msg
  let msg := match rule.suppress_prefixlength with
    | some s => pushRuleAttr msg (.SuppressPrefixLen s)
    | none => msg
  { msg with header := { msg.header with
      family := if rule.v6 then .Inet6 else .Inet } }

/-- The `for rule in rules` loop of `Handle::delete_rules`: issue the
delete request for every rule in order, collecting the requests
issued and the `(rule, error)` pairs of the failed ones.  `exec`
models the kernel's response to each request. -/
def delete_rulesGo (exec : RuleMessage → Except String Unit) :
    List Rule → List RuleMessage × List (Rule × String)
  | [] => ([], [])
  | rule :: rest =>
      let req := ruleToDelMessage rule
      let (attempted, failed) := delete_rulesGo exec rest
      match exec req with
      | .ok _ => (req :: attempted, failed)
      | .error e => (req :: attempted, (rule, e) :: failed)

/-- `Handle::delete_rules`: run the loop; return `Ok(())` when no
rule failed and otherwise the error carrying the list of
`(rule, error)` pairs.  The first component records every request
issued to the kernel, in order. -/
def Handle.delete_rules (exec : RuleMessage → Except String Unit)
    (rules : List Rule) :
    List RuleMessage × Except (List (Rule × String)) Unit :=
  let (attempted, failed) := delete_rulesGo exec rules
  (attempted, if failed.isEmpty then .ok () else .error failed)

/-- An add-rule request as `Handle::add_rules` hands it to the
kernel: the rule message plus the NLM_F_REPLACE flag set by the
`replace()` builder. -/
structure RuleRequest where
  message : RuleMessage
  replace : Bool
deriving DecidableEq, Repr

/-- Modelled from the spec: `rtnetlink`'s fresh rule add request (the
builder crate is not part of this repository): default message, no
replace flag. -/
def emptyRuleAddRequest : RuleRequest :=
  { message := RuleMessage.default, replace := false }

/-- Modelled from the spec: `rtnetlink`'s rule `source_prefix`
builder — sets the header's src prefix length and pushes a Source
attribute. -/
def ruleSetSource (msg : RuleMessage) (addr : IpAddr) (len : Nat) :
    RuleMessage :=
  pushRuleAttr { msg with header := { msg.header with src_len := len } }
    (.Source addr)

/-- Modelled from the spec: `rtnetlink`'s rule `destination_prefix`
builder — sets the header's dst prefix length and pushes a
Destination attribute. -/
def ruleSetDestination (msg : RuleMessage) (addr : IpAddr) (len : Nat) :
    RuleMessage :=
  pushRuleAttr { msg with header := { msg.header with dst_len := len } }
    (.Destination addr)

/-- For an `if let Some(x) = o` that pushes attributes derived from
`x`: append `f x` to the message's attributes when `o` is present. -/
def optPush {α : Type} (m : RuleMessage) (o : Option α)
    (f : α → List RuleAttr) : RuleMessage :=
  match o with
  | some x => { m with attributes := m.attributes ++ f x }
  | none => m

/-- The family-independent prelude of the add request
`Handle::add_rules` builds for one rule, in source order: action
forced to `ToTable`, then input/output interface, table, priority,
raw firewall-mark / suppression / protocol attributes. -/
def ruleAddBase (rule : Rule) : RuleMessage :=
  optPush (optPush (optPush (optPush (optPush (optPush (optPush
    { RuleMessage.default with
      header := { RuleMessage.default.header with action := .ToTable } }
    rule.input_interface fun n => [.Iifname n])
    rule.output_interface fun n => [.Oifname n])
    rule.table_id fun t => [.Table t])
    rule.priority fun p => [.Priority p])
    rule.fw_mark_mask fun mk => [.FwMark mk.1, .FwMask mk.2])
    rule.suppress_prefixlength fun s => [.SuppressPrefixLen s])
    rule.protocol fun p => [.IpProtocol p]

/-- The add request `Handle::add_rules` builds for one rule: the
family-independent prelude, the replace flag, then the
family-specific `v4()`/`v6()` branch.  In that branch a `src` or
`dst` criterion is added only when its IP version matches the `v6`
flag — a mismatched criterion is silently skipped by the inner
`if let`. -/
def ruleToAddRequest (rule : Rule) : RuleRequest :=
  let req : RuleRequest := { message := ruleAddBase rule, replace := true }
  if rule.v6 then
    let msg := { req.message with
                 header := { req.message.header with family := .Inet6 } }
    let msg := match rule.src with
      | some (.v6 a, len) => ruleSetSource msg (.v6 a) len
      | _ => msg
    let msg := match rule.dst with
      | some (.v6 a, len) => ruleSetDestination msg (.v6 a) len
      | _ => msg
    { req with message := msg }
  else
    let msg := { req.message with
                 header := { req.message.header with family := .Inet } }
    let msg := match rule.src with
      | some (.v4 a, len) => ruleSetSource msg (.v4 a) len
      | _ => msg
    let msg := match rule.dst with
      | some (.v4 a, len) => ruleSetDestination msg (.v4 a) len
      | _ => msg
    { req with message := msg }

/-- `Handle::add_rules`: issue one add request per rule, in input
order, stopping at — and propagating — the first error (`?` in the
loop body).  The first component records every request issued to the
kernel, in order. -/
def Handle.add_rules (exec : RuleRequest → Except String Unit) :
    List Rule → List RuleRequest × Except String Unit
  | [] => ([], .ok ())
  | rule :: rest =>
      let req := ruleToAddRequest rule
      match exec req with
      | .error e => ([req], .error e)
      | .ok _ =>
          let (attempted, res) := Handle.add_rules exec rest
          (req :: attempted, res)

/-- `crate::RouteChange`: the decoded route-change events. -/
inductive RouteChange where
  | Add (route : Route)
  | Delete (route : Route)
deriving DecidableEq, Repr

/-- `tokio::sync::broadcast::Receiver::recv` outcomes, as matched by
`route_listen_stream`'s loop. -/
inductive RecvResult where
  | ok (ev : RouteChange)
  | lagged (n : Nat)
  | closed
deriving DecidableEq, Repr

/-- The `loop { match rx.recv().await { ... } }` body of
`Handle::route_listen_stream`, run over a trace of `recv` outcomes:
`ok` yields the event, `Lagged` continues silently, `Closed` breaks.
Returns the yielded events and whether the stream ended (hit the
`break`); a trace that runs out without `closed` leaves the stream
pending, not ended. -/
def streamRun : List RecvResult → List RouteChange × Bool
  | [] => ([], false)
  | .ok ev :: rest =>
      let (evs, ended) := streamRun rest
      (ev :: evs, ended)
  | .lagged _ :: rest => streamRun rest
  | .closed :: _ => ([], true)

/-- Modelled from the spec: the bounded multi-consumer broadcast
channel (`tokio::sync::broadcast` with capacity `cap`, not part of
this repository).  `published` is the whole sequence of events the
notifier sent, after which the channel is closed (Handle teardown).
A subscriber whose cursor has fallen more than `cap` behind receives
`Lagged` and its cursor jumps to the oldest retained event — the
oldest unread events are dropped; otherwise it receives the event at
its cursor; past the end it receives `Closed`. -/
def recvTrace (cap : Nat) (published : List RouteChange) :
    Nat → List RecvResult
  | cursor =>
      if h : cursor < published.length then
        if published.length - cursor > cap then
          .lagged (published.length - cap - cursor) ::
            recvTrace cap published (published.length - cap)
        else
          .ok (published.get ⟨cursor, h⟩) ::
            recvTrace cap published (cursor + 1)
      else [.closed]
termination_by cursor => published.length - cursor
decreasing_by
  · simp_wf
    omega
  · simp_wf
    omega

/-- True of Destination route attributes. -/
def isDestAttr : RouteAttribute → Bool
  | .Destination _ => true
  | _ => false

/-- True of Table route attributes. -/
def isTableAttr : RouteAttribute → Bool
  | .Table _ => true
  | _ => false

/-- The value of a Table route attribute. -/
def tableVal : RouteAttribute → Option Nat
  | .Table t => some t
  | _ => none

/-- Whether a route message carries a Destination attribute at all. -/
def hasDestAttr (msg : RouteMessage) : Bool :=
  msg.attributes.any isDestAttr

/-- True of Source rule attributes. -/
def isSrcRuleAttr : RuleAttr → Bool
  | .Source _ => true
  | _ => false

/-- True of Destination rule attributes. -/
def isDstRuleAttr : RuleAttr → Bool
  | .Destination _ => true
  | _ => false

/-- Whether a rule message carries a source-prefix (Source)
attribute. -/
def hasRuleSrcAttr (msg : RuleMessage) : Bool :=
  msg.attributes.any isSrcRuleAttr

/-- Whether a rule message carries a destination-prefix (Destination)
attribute. -/
def hasRuleDstAttr (msg : RuleMessage) : Bool :=
  msg.attributes.any isDstRuleAttr

/-- `Handle::delete`'s match criterion on a scanned wire message: the
decoded `(destination, prefix, metric)` triple equals the input's. -/
def tripleMatches (route : Route) (msg : RouteMessage) : Bool :=
  match routeFromWire msg with
  | some other_route =>
      decide (other_route.destination = route.destination ∧
              other_route.prefix_len = route.prefix_len ∧
              other_route.metric = route.metric)
  | none => false

section DecodeLemmas

theorem decodeStep_destination_of_not_dest {s : DecodeState}
    {a : RouteAttribute} (h : isDestAttr a = false) :
    (decodeStep s a).destination = s.destination := by
  cases a <;> simp_all [isDestAttr, decodeStep]

theorem decodeStep_table_of_not_table {s : DecodeState}
    {a : RouteAttribute} (h : isTableAttr a = false) :
    (decodeStep s a).table = s.table := by
  cases a <;> simp_all [isTableAttr, decodeStep]

theorem foldl_destination_of_no_dest :
    ∀ (attrs : List RouteAttribute) (s : DecodeState),
      (∀ a ∈ attrs, isDestAttr a = false) →
      (attrs.foldl decodeStep s).destination = s.destination
  | [], _, _ => rfl
  | a :: rest, s, h => by
      rw [List.foldl_cons,
        foldl_destination_of_no_dest rest _ (fun x hx => h x (by simp [hx])),
        decodeStep_destination_of_not_dest (h a (by simp))]

theorem foldl_table_of_no_table :
    ∀ (attrs : List RouteAttribute) (s : DecodeState),
      (∀ a ∈ attrs, isTableAttr a = false) →
      (attrs.foldl decodeStep s).table = s.table
  | [], _, _ => rfl
  | a :: rest, s, h => by
      rw [List.foldl_cons,
        foldl_table_of_no_table rest _ (fun x hx => h x (by simp [hx])),
        decodeStep_table_of_not_table (h a (by simp))]

theorem filterMap_tableVal_nil {attrs : List RouteAttribute}
    (h : attrs.filterMap tableVal = []) :
    ∀ a ∈ attrs, isTableAttr a = false := by
  intro a ha
  cases a <;> simp [isTableAttr]
  case Table t =>
    have ht : t ∈ attrs.filterMap tableVal :=
      List.mem_filterMap.mpr ⟨.Table t, ha, rfl⟩
    rw [h] at ht
    simp at ht

theorem foldl_table_of_single_table :
    ∀ (attrs : List RouteAttribute) (s : DecodeState) (t : Nat),
      attrs.filterMap tableVal = [t] →
      (attrs.foldl decodeStep s).table = t
  | [], _, _, h => by simp at h
  | a :: rest, s, t, h => by
      cases a with
      | Table u =>
          have hu : u = t ∧ rest.filterMap tableVal = [] := by
            simpa [tableVal] using h
          rw [List.foldl_cons,
            foldl_table_of_no_table rest _ (filterMap_tableVal_nil hu.2)]
          simp [decodeStep, hu.1]
      | Source addr =>
          rw [List.foldl_cons]
          exact foldl_table_of_single_table rest _ t (by simpa [tableVal] using h)
      | PrefSource addr =>
          rw [List.foldl_cons]
          exact foldl_table_of_single_table rest _ t (by simpa [tableVal] using h)
      | Destination addr =>
          rw [List.foldl_cons]
          exact foldl_table_of_single_table rest _ t (by simpa [tableVal] using h)
      | Gateway addr =>
          rw [List.foldl_cons]
          exact foldl_table_of_single_table rest _ t (by simpa [tableVal] using h)
      | Oif i =>
          rw [List.foldl_cons]
          exact foldl_table_of_single_table rest _ t (by simpa [tableVal] using h)
      | Priority p =>
          rw [List.foldl_cons]
          exact foldl_table_of_single_table rest _ t (by simpa [tableVal] using h)
      | other =>
          rw [List.foldl_cons]
          exact foldl_table_of_single_table rest _ t (by simpa [tableVal] using h)

theorem routeFromWire_table (msg : RouteMessage) (r : Route)
    (h : routeFromWire msg = some r) :
    r.table = (msg.attributes.foldl decodeStep
      { gateway := none, source := none, source_hint := none,
        destination := none, ifindex := none, metric := none,
        table := msg.header.table }).table := by
  unfold routeFromWire at h
  set s := msg.attributes.foldl decodeStep
    { gateway := none, source := none, source_hint := none,
      destination := none, ifindex := none, metric := none,
      table := msg.header.table } with hs
  rcases hd : s.destination with _ | d
  · rcases hf : msg.header.address_family with _ | _ | c <;>
      simp [hd, hf] at h <;> simp [← h]
  · simp [hd] at h
    simp [← h]

theorem routeFromWire_isSome_of_family (msg : RouteMessage)
    (h : msg.header.address_family = .Inet ∨
         msg.header.address_family = .Inet6) :
    (routeFromWire msg).isSome = true := by
  unfold routeFromWire
  set s := msg.attributes.foldl decodeStep
    { gateway := none, source := none, source_hint := none,
      destination := none, ifindex := none, metric := none,
      table := msg.header.table } with hs
  rcases hd : s.destination with _ | d
  · rcases h with h | h <;> simp [hd, h]
  · simp [hd]

theorem routeFromWire_no_dest_inet (msg : RouteMessage)
    (hd : ∀ a ∈ msg.attributes, isDestAttr a = false)
    (hf : msg.header.address_family = .Inet) :
    ∃ r, routeFromWire msg = some r ∧ r.destination = .v4 0 := by
  unfold routeFromWire
  set s := msg.attributes.foldl decodeStep
    { gateway := none, source := none, source_hint := none,
      destination := none, ifindex := none, metric := none,
      table := msg.header.table } with hs
  have hnone : s.destination = none := by
    rw [hs]
    exact foldl_destination_of_no_dest _ _ hd
  refine ⟨{ destination := .v4 0,
            prefix_len := msg.header.destination_prefix_length,
            source := s.source,
            source_prefix_len := msg.header.source_prefix_length,
            source_hint := s.source_hint, gateway := s.gateway,
            ifindex := s.ifindex, table := s.table,
            metric := s.metric }, ?_, rfl⟩
  simp [hnone, hf]

theorem routeFromWire_no_dest_inet6 (msg : RouteMessage)
    (hd : ∀ a ∈ msg.attributes, isDestAttr a = false)
    (hf : msg.header.address_family = .Inet6) :
    ∃ r, routeFromWire msg = some r ∧ r.destination = .v6 0 := by
  unfold routeFromWire
  set s := msg.attributes.foldl decodeStep
    { gateway := none, source := none, source_hint := none,
      destination := none, ifindex := none, metric := none,
      table := msg.header.table } with hs
  have hnone : s.destination = none := by
    rw [hs]
    exact foldl_destination_of_no_dest _ _ hd
  refine ⟨{ destination := .v6 0,
            prefix_len := msg.header.destination_prefix_length,
            source := s.source,
            source_prefix_len := msg.header.source_prefix_length,
            source_hint := s.source_hint, gateway := s.gateway,
            ifindex := s.ifindex, table := s.table,
            metric := s.metric }, ?_, rfl⟩
  simp [hnone, hf]

theorem foldl_destination_isSome :
    ∀ (attrs : List RouteAttribute) (s : DecodeState),
      (∀ a, RouteAttribute.Destination a ∈ attrs →
        (addr_to_ip a).isSome = true) →
      ((∃ a, RouteAttribute.Destination a ∈ attrs) ∨
        s.destination.isSome = true) →
      (attrs.foldl decodeStep s).destination.isSome = true
  | [], s, _, h0 => by
      rcases h0 with ⟨a, ha⟩ | hs
      · simp at ha
      · simpa using hs
  | a :: rest, s, hwf, h0 => by
      rw [List.foldl_cons]
      cases ha : isDestAttr a with
      | true =>
          cases a <;> simp [isDestAttr] at ha
          case Destination addr =>
            refine foldl_destination_isSome rest _
              (fun x hx => hwf x (by simp [hx])) (Or.inr ?_)
            simpa [decodeStep] using hwf addr (by simp)
      | false =>
          refine foldl_destination_isSome rest _
            (fun x hx => hwf x (by simp [hx])) ?_
          rcases h0 with ⟨b, hb⟩ | hs
          · rcases List.mem_cons.mp hb with hb | hb
            · rw [← hb] at ha
              simp [isDestAttr] at ha
            · exact Or.inl ⟨b, hb⟩
          · exact Or.inr (by rwa [decodeStep_destination_of_not_dest ha])

theorem routeFromWire_isSome_of_dest (msg : RouteMessage)
    (hwf : ∀ a, RouteAttribute.Destination a ∈ msg.attributes →
      (addr_to_ip a).isSome = true)
    (hex : ∃ a, RouteAttribute.Destination a ∈ msg.attributes) :
    (routeFromWire msg).isSome = true := by
  unfold routeFromWire
  set s := msg.attributes.foldl decodeStep
    { gateway := none, source := none, source_hint := none,
      destination := none, ifindex := none, metric := none,
      table := msg.header.table } with hs
  have : s.destination.isSome = true := by
    rw [hs]
    exact foldl_destination_isSome _ _ hwf (Or.inl hex)
  rcases hd : s.destination with _ | d
  · rw [hd] at this
    simp at this
  · simp [hd]

end DecodeLemmas

/-- C2: decoding a wire `RouteMessage` with no Destination attribute
yields the unspecified address of the header's declared family as
destination; and the decoded table equals the header's table field
when no Table attribute is present, while a (single) Table attribute
overrides the header value. -/
theorem routeFromWire_defaults_spec (msg : RouteMessage) :
    ((∀ a ∈ msg.attributes, isDestAttr a = false) →
      (msg.header.address_family = .Inet →
        ∃ r, routeFromWire msg = some r ∧ r.destination = .v4 0) ∧
      (msg.header.address_family = .Inet6 →
        ∃ r, routeFromWire msg = some r ∧ r.destination = .v6 0)) ∧
    (∀ r, routeFromWire msg = some r →
      ((∀ a ∈ msg.attributes, isTableAttr a = false) →
        r.table = msg.header.table) ∧
      (∀ t, msg.attributes.filterMap tableVal = [t] → r.table = t)) := by
  refine ⟨fun hd => ⟨routeFromWire_no_dest_inet msg hd,
    routeFromWire_no_dest_inet6 msg hd⟩, fun r hr => ⟨fun hnt => ?_, fun t ht => ?_⟩⟩
  · rw [routeFromWire_table msg r hr, foldl_table_of_no_table _ _ hnt]
  · rw [routeFromWire_table msg r hr, foldl_table_of_single_table _ _ t ht]

/-- Witness for C2 at a concrete message: family Inet, header table
5, a Priority attribute but no Destination and no Table attribute. -/
theorem routeFromWire_defaults_witness :
    ∃ r, routeFromWire
      { header := { address_family := .Inet,
                    destination_prefix_length := 0,
                    source_prefix_length := 0, table := 5 },
        attributes := [.Priority 10] } = some r ∧
      r.destination = .v4 0 :=
  ((routeFromWire_defaults_spec _).1 (by decide)).1 rfl

/-- C10: decoding a wire `RouteMessage` with no Destination attribute
and a header family that is neither Inet nor Inet6 panics (`none` in
this model); decoding is total when the header family is an IP
family, or when the message carries Destination attributes that are
IP-valued. -/
theorem routeFromWire_panic_spec (msg : RouteMessage) :
    ((∀ a ∈ msg.attributes, isDestAttr a = false) →
      msg.header.address_family ≠ .Inet →
      msg.header.address_family ≠ .Inet6 →
      routeFromWire msg = none) ∧
    (msg.header.address_family = .Inet ∨
      msg.header.address_family = .Inet6 →
      (routeFromWire msg).isSome = true) ∧
    ((∀ a, RouteAttribute.Destination a ∈ msg.attributes →
        (addr_to_ip a).isSome = true) →
      (∃ a, RouteAttribute.Destination a ∈ msg.attributes) →
      (routeFromWire msg).isSome = true) := by
  refine ⟨fun hd h4 h6 => ?_, routeFromWire_isSome_of_family msg,
    routeFromWire_isSome_of_dest msg⟩
  unfold routeFromWire
  set s := msg.attributes.foldl decodeStep
    { gateway := none, source := none, source_hint := none,
      destination := none, ifindex := none, metric := none,
      table := msg.header.table } with hs
  have hnone : s.destination = none := by
    rw [hs]
    exact foldl_destination_of_no_dest _ _ hd
  rcases hf : msg.header.address_family with _ | _ | c
  · exact absurd hf h4
  · exact absurd hf h6
  · simp [hnone, hf]

/-- Witness for C10 at a concrete message: no attributes, header
family code 17 (AF_PACKET): the conversion panics. -/
theorem routeFromWire_panic_witness :
    routeFromWire
      { header := { address_family := .other 17,
                    destination_prefix_length := 0,
                    source_prefix_length := 0, table := 0 },
        attributes := [] } = none :=
  (routeFromWire_panic_spec _).1 (by decide) (by decide) (by decide)

section DefaultRouteLemmas

theorem wireDestination_none_of_no_dest (msg : RouteMessage)
    (hd : hasDestAttr msg = false) : wireDestination msg = none := by
  unfold wireDestination
  rw [List.findSome?_eq_none_iff]
  intro a ha
  have hda : isDestAttr a = false := by
    by_contra hc
    unfold hasDestAttr at hd
    exact absurd (List.any_eq_true.mpr
      ⟨a, ha, by simpa using hc⟩) (by simp [hd])
  cases a <;> simp_all [isDestAttr]

theorem wireDestination_isSome_of_has (msg : RouteMessage)
    (hwf : ∀ a, RouteAttribute.Destination a ∈ msg.attributes →
      (addr_to_ip a).isSome = true)
    (h : hasDestAttr msg = true) : (wireDestination msg).isNone = false := by
  unfold hasDestAttr at h
  obtain ⟨a, ha, hda⟩ := List.any_eq_true.mp h
  cases a <;> simp [isDestAttr] at hda
  case Destination addr =>
    have hip := hwf addr ha
    cases hw : wireDestination msg with
    | some v => simp
    | none =>
        exfalso
        unfold wireDestination at hw
        have hfa := List.findSome?_eq_none_iff.mp hw _ ha
        rcases hip' : addr_to_ip addr with _ | ip
        · rw [hip'] at hip
          simp at hip
        · simp [hip'] at hfa

theorem find?_first {α : Type} (p : α → Bool) :
    ∀ (pre : List α) (m : α) (post : List α),
      (∀ x ∈ pre, p x = false) → p m = true →
      (pre ++ m :: post).find? p = some m
  | [], m, post, _, hm => by simp [List.find?_cons_of_pos _ hm]
  | a :: pre, m, post, hpre, hm => by
      rw [List.cons_append,
        List.find?_cons_of_neg _ (by simp [hpre a (by simp)])]
      exact find?_first p pre m post (fun x hx => hpre x (by simp [hx])) hm

end DefaultRouteLemmas

/-- C6: `Handle::default_route` scans the V4 listing then the V6
listing and returns the decoded Route of the first scanned message
lacking a Destination attribute, short-circuiting there; it returns
`Ok(None)` exactly when every message of both families carries a
Destination attribute.  The criterion is wire-level attribute
absence, not a comparison of the decoded destination.  Hypotheses:
the kernel-supplied listings carry IP-valued Destination attributes
and IP header families. -/
theorem default_route_spec (v4msgs v6msgs : List RouteMessage)
    (hwf : ∀ m ∈ v4msgs ++ v6msgs, ∀ a,
      RouteAttribute.Destination a ∈ m.attributes →
      (addr_to_ip a).isSome = true)
    (hfam : ∀ m ∈ v4msgs ++ v6msgs,
      m.header.address_family = .Inet ∨
      m.header.address_family = .Inet6) :
    ((∀ m ∈ v4msgs ++ v6msgs, hasDestAttr m = true) →
      Handle.default_route v4msgs v6msgs = some none) ∧
    (∀ pre m post, v4msgs = pre ++ m :: post →
      (∀ m' ∈ pre, hasDestAttr m' = true) → hasDestAttr m = false →
      ∃ r, routeFromWire m = some r ∧
        Handle.default_route v4msgs v6msgs = some (some r)) ∧
    ((∀ m ∈ v4msgs, hasDestAttr m = true) →
      ∀ pre m post, v6msgs = pre ++ m :: post →
      (∀ m' ∈ pre, hasDestAttr m' = true) → hasDestAttr m = false →
      ∃ r, routeFromWire m = some r ∧
        Handle.default_route v4msgs v6msgs = some (some r)) := by
  have hwf4 : ∀ m ∈ v4msgs, ∀ a,
      RouteAttribute.Destination a ∈ m.attributes →
      (addr_to_ip a).isSome = true :=
    fun m hm => hwf m (by simp [hm])
  have hwf6 : ∀ m ∈ v6msgs, ∀ a,
      RouteAttribute.Destination a ∈ m.attributes →
      (addr_to_ip a).isSome = true :=
    fun m hm => hwf m (by simp [hm])
  refine ⟨fun hall => ?_, fun pre m post hsplit hpre hm => ?_,
    fun hall4 pre m post hsplit hpre hm => ?_⟩
  · have h4 : v4msgs.find? (fun m => (wireDestination m).isNone) = none :=
      List.find?_eq_none.mpr fun m hm => by
        simp [wireDestination_isSome_of_has m (hwf4 m hm)
          (hall m (by simp [hm]))]
    have h6 : v6msgs.find? (fun m => (wireDestination m).isNone) = none :=
      List.find?_eq_none.mpr fun m hm => by
        simp [wireDestination_isSome_of_has m (hwf6 m hm)
          (hall m (by simp [hm]))]
    unfold Handle.default_route
    rw [h4, h6]
  · have hmem : m ∈ v4msgs := by simp [hsplit]
    have hfind : v4msgs.find? (fun m => (wireDestination m).isNone) = some m := by
      rw [hsplit]
      refine find?_first _ pre m post (fun x hx => ?_) ?_
      · simp [wireDestination_isSome_of_has x
          (hwf4 x (by simp [hsplit, hx])) (hpre x hx)]
      · simp [wireDestination_none_of_no_dest m hm]
    have hsome : (routeFromWire m).isSome = true :=
      routeFromWire_isSome_of_family m (hfam m (by simp [hmem]))
    obtain ⟨r, hr⟩ := Option.isSome_iff_exists.mp hsome
    refine ⟨r, hr, ?_⟩
    unfold Handle.default_route
    rw [hfind]
    simp [hr]
  · have hmem : m ∈ v6msgs := by simp [hsplit]
    have h4 : v4msgs.find? (fun m => (wireDestination m).isNone) = none :=
      List.find?_eq_none.mpr fun x hx => by
        simp [wireDestination_isSome_of_has x (hwf4 x hx) (hall4 x hx)]
    have hfind : v6msgs.find? (fun m => (wireDestination m).isNone) = some m := by
      rw [hsplit]
      refine find?_first _ pre m post (fun x hx => ?_) ?_
      · simp [wireDestination_isSome_of_has x
          (hwf6 x (by simp [hsplit, hx])) (hpre x hx)]
      · simp [wireDestination_none_of_no_dest m hm]
    have hsome : (routeFromWire m).isSome = true :=
      routeFromWire_isSome_of_family m (hfam m (by simp [hmem]))
    obtain ⟨r, hr⟩ := Option.isSome_iff_exists.mp hsome
    refine ⟨r, hr, ?_⟩
    unfold Handle.default_route
    rw [h4, hfind]
    simp [hr]

/-- Witness for C6: a V4 listing whose first message has a
Destination attribute and whose second lacks one — the second is
returned, decoded with the unspecified destination. -/
theorem default_route_witness :
    ∃ r, routeFromWire
        { header := { address_family := .Inet,
                      destination_prefix_length := 0,
                      source_prefix_length := 0, table := 254 },
          attributes := [.Gateway (.Inet 777)] } = some r ∧
      Handle.default_route
        [{ header := { address_family := .Inet,
                       destination_prefix_length := 24,
                       source_prefix_length := 0, table := 254 },
           attributes := [.Destination (.Inet 42)] },
         { header := { address_family := .Inet,
                       destination_prefix_length := 0,
                       source_prefix_length := 0, table := 254 },
           attributes := [.Gateway (.Inet 777)] }] [] = some (some r) :=
  (default_route_spec _ _
    (by
      intro m hm a ha
      simp only [List.append_nil, List.mem_cons,
        List.not_mem_nil, or_false] at hm
      rcases hm with rfl | rfl <;> simp_all [addr_to_ip])
    (by decide)).2.1
    [{ header := { address_family := .Inet,
                   destination_prefix_length := 24,
                   source_prefix_length := 0, table := 254 },
       attributes := [.Destination (.Inet 42)] }]
    _ [] rfl (by decide) (by decide)

theorem deleteScan_eq (route : Route) :
    ∀ msgs : List RouteMessage,
      (∀ m ∈ msgs, (routeFromWire m).isSome = true) →
      deleteScan route msgs =
        match msgs.find? (tripleMatches route) with
        | some m => .deleted m
        | none => .notFound
  | [], _ => rfl
  | msg :: rest, hdec => by
      obtain ⟨r, hr⟩ := Option.isSome_iff_exists.mp (hdec msg (by simp))
      by_cases hmatch : r.destination = route.destination ∧
          r.prefix_len = route.prefix_len ∧ r.metric = route.metric
      · have ht : tripleMatches route msg = true := by
          unfold tripleMatches
          rw [hr]
          simpa using hmatch
        rw [List.find?_cons_of_pos _ ht]
        simp [deleteScan, hr, hmatch]
      · have ht : tripleMatches route msg = false := by
          unfold tripleMatches
          rw [hr]
          simpa using hmatch
        rw [List.find?_cons_of_neg _ (by simp [ht])]
        rw [show deleteScan route (msg :: rest) = deleteScan route rest by
          simp [deleteScan, hr, hmatch]]
        exact deleteScan_eq route rest (fun m hm => hdec m (by simp [hm]))

/-- C1: `Handle::delete` lists the routes of the destination's own
address family, scans them in response order, replays the first
wire message whose decoded `(destination, prefix, metric)` triple
equals the input's back as the delete request, and reports NotFound
when no scanned entry matches; the match criterion reads nothing
outside the triple.  Hypothesis: every listed message decodes (the
conversion would otherwise panic, not return NotFound). -/
theorem delete_spec (kernel : IpVersion → List RouteMessage) (route : Route)
    (hdec : ∀ m ∈ kernel route.destination.version,
      (routeFromWire m).isSome = true) :
    (Handle.delete kernel route =
      deleteScan route (kernel route.destination.version)) ∧
    (match (kernel route.destination.version).find? (tripleMatches route) with
     | some m => Handle.delete kernel route = .deleted m
     | none => Handle.delete kernel route = .notFound) ∧
    (∀ route' : Route, route'.destination = route.destination →
      route'.prefix_len = route.prefix_len → route'.metric = route.metric →
      ∀ m, tripleMatches route' m = tripleMatches route m) := by
  refine ⟨rfl, ?_, ?_⟩
  · have h := deleteScan_eq route _ hdec
    rcases hf : (kernel route.destination.version).find?
        (tripleMatches route) with _ | m
    · show Handle.delete kernel route = .notFound
      unfold Handle.delete
      rw [h, hf]
    · show Handle.delete kernel route = .deleted m
      unfold Handle.delete
      rw [h, hf]
  · intro route' h1 h2 h3 m
    unfold tripleMatches
    rcases routeFromWire m with _ | r
    · rfl
    · simp [h1, h2, h3]

/-- Witness for C1: a listing of two IPv4 messages; the first does
not match the query's triple, the second does despite carrying a
gateway the query lacks, and is the one replayed for deletion. -/
theorem delete_witness :
    Handle.delete
      (fun v => match v with
        | .V4 =>
            [{ header := { address_family := .Inet,
                           destination_prefix_length := 16,
                           source_prefix_length := 0, table := 254 },
               attributes := [.Destination (.Inet 99)] },
             { header := { address_family := .Inet,
                           destination_prefix_length := 24,
                           source_prefix_length := 0, table := 254 },
               attributes := [.Destination (.Inet 10), .Priority 5,
                              .Gateway (.Inet 123)] }]
        | .V6 => [])
      { destination := .v4 10, prefix_len := 24, source := none,
        source_prefix_len := 0, source_hint := none, gateway := none,
        ifindex := none, table := 254, metric := some 5 } =
      .deleted
        { header := { address_family := .Inet,
                      destination_prefix_length := 24,
                      source_prefix_length := 0, table := 254 },
          attributes := [.Destination (.Inet 10), .Priority 5,
                         .Gateway (.Inet 123)] } :=
  (delete_spec
    (fun v => match v with
      | .V4 =>
          [{ header := { address_family := .Inet,
                         destination_prefix_length := 16,
                         source_prefix_length := 0, table := 254 },
             attributes := [.Destination (.Inet 99)] },
           { header := { address_family := .Inet,
                         destination_prefix_length := 24,
                         source_prefix_length := 0, table := 254 },
             attributes := [.Destination (.Inet 10), .Priority 5,
                            .Gateway (.Inet 123)] }]
      | .V6 => [])
    { destination := .v4 10, prefix_len := 24, source := none,
      source_prefix_len := 0, source_hint := none, gateway := none,
      ifindex := none, table := 254, metric := some 5 }
    (by decide)).2.1

/-- C3: when `gateway`, `source` or `source_hint` is present with an
IP version different from the destination's, `Handle::add` returns
an `InvalidInput` error; in this model an error is returned in place
of a built request message, so no request reaches the kernel. -/
theorem add_family_mismatch_spec (route : Route)
    (h : (∃ g, route.gateway = some g ∧
           g.sameVersion route.destination = false) ∨
         (∃ s, route.source = some s ∧
           s.sameVersion route.destination = false) ∨
         (∃ s, route.source_hint = some s ∧
           s.sameVersion route.destination = false)) :
    ∃ emsg, Handle.add route = .error (.invalidInput emsg) := by
  rcases route with ⟨dest, plen, src, splen, hint, gw, ifx, tbl, mtr⟩
  rcases dest with a | a <;>
  rcases gw with _ | (ga | ga) <;>
  rcases hint with _ | (ha | ha) <;>
  rcases src with _ | (sa | sa) <;>
  first
    | exact ⟨_, rfl⟩
    | (exfalso; simp [IpAddr.sameVersion] at h)

/-- Witness for C3: an IPv4 destination with an IPv6 gateway. -/
theorem add_family_mismatch_witness :
    ∃ emsg, Handle.add
      { destination := .v4 0, prefix_len := 0, source := none,
        source_prefix_len := 0, source_hint := none,
        gateway := some (.v6 1), ifindex := none, table := 254,
        metric := none } = .error (.invalidInput emsg) :=
  add_family_mismatch_spec _ (Or.inl ⟨.v6 1, rfl, rfl⟩)

/-- C8: for a Route with every optional field populated and a
consistent address family, the wire message `Handle::add` builds
decodes back, via `From<RouteMessage> for Route`, to a Route equal
to the original in every field — whether the table value travels in
the 8-bit header field or as a Table attribute. -/
theorem add_roundtrip_spec (route : Route)
    (hg : ∃ g, route.gateway = some g ∧
      g.sameVersion route.destination = true)
    (hs : ∃ s, route.source = some s ∧
      s.sameVersion route.destination = true)
    (hh : ∃ s, route.source_hint = some s ∧
      s.sameVersion route.destination = true)
    (hi : route.ifindex.isSome = true)
    (hm : route.metric.isSome = true) :
    ∃ msg, Handle.add route = .ok msg ∧
      routeFromWire msg = some route := by
  obtain ⟨g, hg1, hg2⟩ := hg
  obtain ⟨s, hs1, hs2⟩ := hs
  obtain ⟨sh, hh1, hh2⟩ := hh
  rcases route with ⟨dest, plen, src, splen, hint, gw, ifx, tbl, mtr⟩
  simp only at hg1 hs1 hh1 hg2 hs2 hh2 hi hm
  subst hg1 hs1 hh1
  rcases ifx with _ | i
  · simp at hi
  rcases mtr with _ | m
  · simp at hm
  rcases dest with a | a
  · rcases g with g | g
    on_goal 2 => simp [IpAddr.sameVersion] at hg2
    rcases s with s | s
    on_goal 2 => simp [IpAddr.sameVersion] at hs2
    rcases sh with sh | sh
    on_goal 2 => simp [IpAddr.sameVersion] at hh2
    refine ⟨_, rfl, ?_⟩
    by_cases ht : tbl > 255 <;>
      simp [setTableId, setDestination, setSource, pushAttr,
        emptyAddRequest, ht, routeFromWire, decodeStep, addr_to_ip]
  · rcases g with g | g
    on_goal 1 => simp [IpAddr.sameVersion] at hg2
    rcases s with s | s
    on_goal 1 => simp [IpAddr.sameVersion] at hs2
    rcases sh with sh | sh
    on_goal 1 => simp [IpAddr.sameVersion] at hh2
    refine ⟨_, rfl, ?_⟩
    by_cases ht : tbl > 255 <;>
      simp [setTableId, setDestination, setSource, pushAttr,
        emptyAddRequest, ht, routeFromWire, decodeStep, addr_to_ip]

theorem delete_rulesGo_eq (exec : RuleMessage → Except String Unit) :
    ∀ rules : List Rule,
      delete_rulesGo exec rules =
        (rules.map ruleToDelMessage,
         rules.filterMap fun r =>
           match exec (ruleToDelMessage r) with
           | .ok _ => none
           | .error e => some (r, e))
  | [] => rfl
  | rule :: rest => by
      simp only [delete_rulesGo, delete_rulesGo_eq exec rest]
      cases hx : exec (ruleToDelMessage rule) <;>
        simp [List.filterMap_cons, hx]

/-- C4: `Handle::delete_rules` issues the delete request for every
rule in the batch, in order, regardless of earlier failures; the
aggregate result is `Ok` exactly when every per-rule deletion
succeeded, and otherwise the error carrying the `(rule, error)`
pairs of precisely the failed rules, in order. -/
theorem delete_rules_spec (exec : RuleMessage → Except String Unit)
    (rules : List Rule) :
    (Handle.delete_rules exec rules =
      (rules.map ruleToDelMessage,
       let failed := rules.filterMap fun r =>
         match exec (ruleToDelMessage r) with
         | .ok _ => none
         | .error e => some (r, e)
       if failed.isEmpty then .ok () else .error failed)) ∧
    ((Handle.delete_rules exec rules).2.isOk = true ↔
      ∀ r ∈ rules, (exec (ruleToDelMessage r)).isOk = true) := by
  have hgo := delete_rulesGo_eq exec rules
  have h1 : Handle.delete_rules exec rules =
      (rules.map ruleToDelMessage,
       let failed := rules.filterMap fun r =>
         match exec (ruleToDelMessage r) with
         | .ok _ => none
         | .error e => some (r, e)
       if failed.isEmpty then .ok () else .error failed) := by
    unfold Handle.delete_rules
    rw [hgo]
  refine ⟨h1, ?_⟩
  rw [h1]
  simp only
  by_cases hf : (rules.filterMap fun r =>
      match exec (ruleToDelMessage r) with
      | .ok _ => none
      | .error e => some (r, e)).isEmpty = true
  · rw [if_pos hf]
    constructor
    · intro _ r hr
      have hnone := List.filterMap_eq_nil_iff.mp
        (List.isEmpty_iff.mp hf) r hr
      cases hx : exec (ruleToDelMessage r)
      · rw [hx] at hnone
        simp at hnone
      · rfl
    · intro _
      rfl
  · rw [if_neg hf]
    constructor
    · intro h
      simp [Except.isOk, Except.toBool] at h
    · intro hall
      exfalso
      apply hf
      rw [List.isEmpty_iff, List.filterMap_eq_nil_iff]
      intro r hr
      have hro := hall r hr
      cases hx : exec (ruleToDelMessage r)
      · rw [hx] at hro
        simp [Except.isOk, Except.toBool] at hro
      · rfl

theorem add_rules_mem_attempted (exec : RuleRequest → Except String Unit) :
    ∀ (rules : List Rule) (req : RuleRequest),
      req ∈ (Handle.add_rules exec rules).1 →
      ∃ rule, rule ∈ rules ∧ req = ruleToAddRequest rule
  | [], req, h => by simp [Handle.add_rules] at h
  | rule :: rest, req, h => by
      rw [Handle.add_rules] at h
      cases hx : exec (ruleToAddRequest rule) with
      | error e =>
          rw [hx] at h
          simp at h
          exact ⟨rule, by simp, h⟩
      | ok u =>
          rw [hx] at h
          simp at h
          rcases h with h | h
          · exact ⟨rule, by simp, h⟩
          · obtain ⟨rule', hmem, hreq⟩ :=
              add_rules_mem_attempted exec rest req h
            exact ⟨rule', by simp [hmem], hreq⟩

theorem ruleToAddRequest_replace (rule : Rule) :
    (ruleToAddRequest rule).replace = true := by
  unfold ruleToAddRequest
  cases rule.v6 <;> simp

theorem add_rules_all_ok (exec : RuleRequest → Except String Unit) :
    ∀ rules : List Rule,
      (∀ r ∈ rules, (exec (ruleToAddRequest r)).isOk = true) →
      Handle.add_rules exec rules = (rules.map ruleToAddRequest, .ok ())
  | [], _ => rfl
  | rule :: rest, hall => by
      rw [Handle.add_rules]
      cases hx : exec (ruleToAddRequest rule) with
      | error e =>
          have hro := hall rule (by simp)
          rw [hx] at hro
          simp [Except.isOk, Except.toBool] at hro
      | ok u =>
          rw [add_rules_all_ok exec rest
            (fun r hr => hall r (by simp [hr]))]
          simp

/-- C5: `Handle::add_rules` issues one independent replace request
per rule, in input order, and is fail-fast: when every request
succeeds all rules are attempted, and when the request of some rule
fails (the rules before it succeeding), the requests attempted are
exactly those of the earlier rules plus the failing one, and the
first error is the operation's result. -/
theorem add_rules_spec (exec : RuleRequest → Except String Unit)
    (rules : List Rule) :
    (∀ req ∈ (Handle.add_rules exec rules).1, req.replace = true) ∧
    ((∀ r ∈ rules, (exec (ruleToAddRequest r)).isOk = true) →
      Handle.add_rules exec rules = (rules.map ruleToAddRequest, .ok ())) ∧
    (∀ pre r post e, rules = pre ++ r :: post →
      (∀ p ∈ pre, (exec (ruleToAddRequest p)).isOk = true) →
      exec (ruleToAddRequest r) = .error e →
      Handle.add_rules exec rules =
        ((pre ++ [r]).map ruleToAddRequest, .error e)) := by
  refine ⟨fun req hreq => ?_, add_rules_all_ok exec rules, ?_⟩
  · obtain ⟨rule, _, hreq'⟩ := add_rules_mem_attempted exec rules req hreq
    rw [hreq']
    exact ruleToAddRequest_replace rule
  · intro pre
    induction pre generalizing rules with
    | nil =>
        intro r post e hsplit hpre herr
        subst hsplit
        rw [List.nil_append, Handle.add_rules, herr]
        simp
    | cons p pre ih =>
        intro r post e hsplit hpre herr
        subst hsplit
        rw [List.cons_append, Handle.add_rules]
        cases hx : exec (ruleToAddRequest p) with
        | error e2 =>
            have hro := hpre p (by simp)
            rw [hx] at hro
            simp [Except.isOk, Except.toBool] at hro
        | ok u =>
            rw [ih (pre ++ r :: post) r post e rfl
              (fun q hq => hpre q (by simp [hq])) herr]
            simp

theorem optPush_forall {α : Type} (P : RuleAttr → Prop) (m : RuleMessage)
    (o : Option α) (f : α → List RuleAttr)
    (hm : ∀ a ∈ m.attributes, P a) (hf : ∀ x, ∀ a ∈ f x, P a) :
    ∀ a ∈ (optPush m o f).attributes, P a := by
  cases o with
  | none => exact hm
  | some x =>
      intro a ha
      simp only [optPush, List.mem_append] at ha
      rcases ha with ha | ha
      · exact hm a ha
      · exact hf x a ha

theorem ruleAddBase_no_src_dst (rule : Rule) :
    ∀ a ∈ (ruleAddBase rule).attributes,
      isSrcRuleAttr a = false ∧ isDstRuleAttr a = false := by
  unfold ruleAddBase
  refine optPush_forall _ _ _ _ (optPush_forall _ _ _ _
    (optPush_forall _ _ _ _ (optPush_forall _ _ _ _
      (optPush_forall _ _ _ _ (optPush_forall _ _ _ _
        (optPush_forall _ _ _ _ ?_ ?_) ?_) ?_) ?_) ?_) ?_) ?_
  · intro a ha
    simp [RuleMessage.default] at ha
  all_goals
    intro x a ha
    simp only [List.mem_cons, List.not_mem_nil, or_false] at ha
    first
      | (rcases ha with rfl | rfl; exacts [⟨rfl, rfl⟩, ⟨rfl, rfl⟩])
      | (subst ha; exact ⟨rfl, rfl⟩)

/-- C9: in `Handle::add_rules`, a `src` or `dst` match criterion
whose IP version disagrees with the rule's `v6` flag is silently
dropped: the built request carries no source/destination prefix
attribute for it, the request is still issued, and the operation's
result depends only on the kernel's response, never on a validation
error. -/
theorem add_rules_mismatch_dropped_spec (rule : Rule)
    (exec : RuleRequest → Except String Unit) :
    (∀ a len, rule.v6 = true → rule.src = some (.v4 a, len) →
      hasRuleSrcAttr (ruleToAddRequest rule).message = false) ∧
    (∀ a len, rule.v6 = true → rule.dst = some (.v4 a, len) →
      hasRuleDstAttr (ruleToAddRequest rule).message = false) ∧
    (∀ a len, rule.v6 = false → rule.src = some (.v6 a, len) →
      hasRuleSrcAttr (ruleToAddRequest rule).message = false) ∧
    (∀ a len, rule.v6 = false → rule.dst = some (.v6 a, len) →
      hasRuleDstAttr (ruleToAddRequest rule).message = false) ∧
    ((Handle.add_rules exec [rule]).1 = [ruleToAddRequest rule]) ∧
    ((exec (ruleToAddRequest rule)).isOk = true →
      (Handle.add_rules exec [rule]).2.isOk = true) := by
  have hbase := ruleAddBase_no_src_dst rule
  refine ⟨?_, ?_, ?_, ?_, ?_, ?_⟩
  · intro a len h6 hsrc
    unfold ruleToAddRequest hasRuleSrcAttr
    rw [h6, if_pos rfl, hsrc]
    rw [List.any_eq_false]
    rcases hdst : rule.dst with _ | ⟨db | db, dlen⟩ <;>
      simp only [ruleSetDestination, pushRuleAttr, List.mem_append,
        List.mem_cons, List.not_mem_nil, or_false]
    · exact fun x hx => by simp [(hbase x hx).1]
    · exact fun x hx => by simp [(hbase x hx).1]
    · rintro x (hx | rfl)
      · simp [(hbase x hx).1]
      · simp [isSrcRuleAttr]
  · intro a len h6 hdst
    unfold ruleToAddRequest hasRuleDstAttr
    rw [h6, if_pos rfl, hdst]
    rw [List.any_eq_false]
    rcases hsrc : rule.src with _ | ⟨sb | sb, slen⟩ <;>
      simp only [ruleSetSource, pushRuleAttr, List.mem_append,
        List.mem_cons, List.not_mem_nil, or_false]
    · exact fun x hx => by simp [(hbase x hx).2]
    · exact fun x hx => by simp [(hbase x hx).2]
    · rintro x (hx | rfl)
      · simp [(hbase x hx).2]
      · simp [isDstRuleAttr]
  · intro a len h6 hsrc
    unfold ruleToAddRequest hasRuleSrcAttr
    rw [h6, if_neg (by simp), hsrc]
    rw [List.any_eq_false]
    rcases hdst : rule.dst with _ | ⟨db | db, dlen⟩ <;>
      simp only [ruleSetDestination, pushRuleAttr, List.mem_append,
        List.mem_cons, List.not_mem_nil, or_false]
    · exact fun x hx => by simp [(hbase x hx).1]
    · rintro x (hx | rfl)
      · simp [(hbase x hx).1]
      · simp [isSrcRuleAttr]
    · exact fun x hx => by simp [(hbase x hx).1]
  · intro a len h6 hdst
    unfold ruleToAddRequest hasRuleDstAttr
    rw [h6, if_neg (by simp), hdst]
    rw [List.any_eq_false]
    rcases hsrc : rule.src with _ | ⟨sb | sb, slen⟩ <;>
      simp only [ruleSetSource, pushRuleAttr, List.mem_append,
        List.mem_cons, List.not_mem_nil, or_false]
    · exact fun x hx => by simp [(hbase x hx).2]
    · rintro x (hx | rfl)
      · simp [(hbase x hx).2]
      · simp [isDstRuleAttr]
    · exact fun x hx => by simp [(hbase x hx).2]
  · rw [Handle.add_rules]
    cases hx : exec (ruleToAddRequest rule) <;> simp [Handle.add_rules]
  · intro hok
    rw [Handle.add_rules]
    cases hx : exec (ruleToAddRequest rule) with
    | error e =>
        rw [hx] at hok
        simp [Except.isOk, Except.toBool] at hok
    | ok u => simp [Handle.add_rules, Except.isOk, Except.toBool]

/-- Witness for C4: two rules, the kernel rejecting the IPv6-family
one; both are attempted and the aggregate error carries exactly the
failed pair. -/
theorem delete_rules_witness :
    Handle.delete_rules
      (fun m => if m.header.family = AddressFamily.Inet6 then
          .error "denied" else .ok ())
      [{ src := none, dst := none, input_interface := none,
         output_interface := none, table_id := none, priority := none,
         fw_mark_mask := none, suppress_prefixlength := none,
         protocol := none, v6 := true },
       { src := none, dst := none, input_interface := none,
         output_interface := none, table_id := none, priority := none,
         fw_mark_mask := none, suppress_prefixlength := none,
         protocol := none, v6 := false }] =
      ([ruleToDelMessage
          { src := none, dst := none, input_interface := none,
            output_interface := none, table_id := none, priority := none,
            fw_mark_mask := none, suppress_prefixlength := none,
            protocol := none, v6 := true },
        ruleToDelMessage
          { src := none, dst := none, input_interface := none,
            output_interface := none, table_id := none, priority := none,
            fw_mark_mask := none, suppress_prefixlength := none,
            protocol := none, v6 := false }],
       .error [({ src := none, dst := none, input_interface := none,
                  output_interface := none, table_id := none,
                  priority := none, fw_mark_mask := none,
                  suppress_prefixlength := none, protocol := none,
                  v6 := true }, "denied")]) := by
  rw [(delete_rules_spec _ _).1]
  rfl

/-- Witness for C5: three rules with the second rejected by the
kernel; only the first two requests are attempted and the first
error is the result. -/
theorem add_rules_witness :
    Handle.add_rules
      (fun req => if req.message.header.family = AddressFamily.Inet6 then
          .error "denied" else .ok ())
      [{ src := none, dst := none, input_interface := none,
         output_interface := none, table_id := none, priority := none,
         fw_mark_mask := none, suppress_prefixlength := none,
         protocol := none, v6 := false },
       { src := none, dst := none, input_interface := none,
         output_interface := none, table_id := none, priority := none,
         fw_mark_mask := none, suppress_prefixlength := none,
         protocol := none, v6 := true },
       { src := none, dst := none, input_interface := none,
         output_interface := none, table_id := some 7, priority := none,
         fw_mark_mask := none, suppress_prefixlength := none,
         protocol := none, v6 := false }] =
      ([ruleToAddRequest
          { src := none, dst := none, input_interface := none,
            output_interface := none, table_id := none, priority := none,
            fw_mark_mask := none, suppress_prefixlength := none,
            protocol := none, v6 := false },
        ruleToAddRequest
          { src := none, dst := none, input_interface := none,
            output_interface := none, table_id := none, priority := none,
            fw_mark_mask := none, suppress_prefixlength := none,
            protocol := none, v6 := true }],
       .error "denied") := by
  have h := (add_rules_spec
    (fun req => if req.message.header.family = AddressFamily.Inet6 then
        .error "denied" else .ok ())
    _).2.2
    [{ src := none, dst := none, input_interface := none,
       output_interface := none, table_id := none, priority := none,
       fw_mark_mask := none, suppress_prefixlength := none,
       protocol := none, v6 := false }]
    { src := none, dst := none, input_interface := none,
      output_interface := none, table_id := none, priority := none,
      fw_mark_mask := none, suppress_prefixlength := none,
      protocol := none, v6 := true }
    [{ src := none, dst := none, input_interface := none,
       output_interface := none, table_id := some 7, priority := none,
       fw_mark_mask := none, suppress_prefixlength := none,
       protocol := none, v6 := false }]
    "denied" rfl (by decide) rfl
  simpa using h

/-- Witness for C9: a v6 rule with an IPv4 `src` criterion — the
built request carries no Source attribute. -/
theorem add_rules_mismatch_dropped_witness :
    hasRuleSrcAttr (ruleToAddRequest
      { src := some (.v4 9, 24), dst := none, input_interface := none,
        output_interface := none, table_id := some 100, priority := none,
        fw_mark_mask := none, suppress_prefixlength := none,
        protocol := none, v6 := true }).message = false :=
  (add_rules_mismatch_dropped_spec _ (fun _ => .ok ())).1 9 24 rfl rfl

theorem streamRun_lagged (n : Nat) (rest : List RecvResult) :
    streamRun (.lagged n :: rest) = streamRun rest := rfl

theorem streamRun_ok (ev : RouteChange) (rest : List RecvResult) :
    streamRun (.ok ev :: rest) =
      (ev :: (streamRun rest).1, (streamRun rest).2) := rfl

theorem streamRun_no_closed :
    ∀ trace : List RecvResult, RecvResult.closed ∉ trace →
      (streamRun trace).2 = false
  | [], _ => rfl
  | .ok ev :: rest, h => by
      rw [streamRun_ok]
      exact streamRun_no_closed rest
        (fun hm => h (List.mem_cons_of_mem _ hm))
  | .lagged n :: rest, h => by
      rw [streamRun_lagged]
      exact streamRun_no_closed rest
        (fun hm => h (List.mem_cons_of_mem _ hm))
  | .closed :: rest, h => absurd (List.mem_cons_self _ _) h

theorem streamRun_recvTrace_aux :
    ∀ (k cap : Nat) (published : List RouteChange) (s : Nat),
      published.length - s ≤ k →
      streamRun (recvTrace cap published s) =
        (published.drop (max s (published.length - cap)), true)
  | 0, cap, published, s, hk => by
      have hge : published.length ≤ s := by omega
      rw [recvTrace, dif_neg (by omega)]
      rw [show streamRun [RecvResult.closed] = ([], true) from rfl]
      rw [List.drop_eq_nil_of_le (le_trans hge (le_max_left _ _))]
  | k + 1, cap, published, s, hk => by
      by_cases hlt : s < published.length
      · rw [recvTrace, dif_pos hlt]
        by_cases hlag : published.length - s > cap
        · rw [if_pos hlag, streamRun_lagged]
          rw [streamRun_recvTrace_aux k cap published
            (published.length - cap) (by omega)]
          have hmax : max (published.length - cap)
              (published.length - cap) = max s (published.length - cap) := by
            omega
          rw [hmax]
        · rw [if_neg hlag, streamRun_ok]
          rw [streamRun_recvTrace_aux k cap published (s + 1) (by omega)]
          have h1 : max s (published.length - cap) = s := by omega
          have h2 : max (s + 1) (published.length - cap) = s + 1 := by
            omega
          rw [h1, h2]
          rw [List.drop_eq_getElem_cons hlt]
          simp
      · rw [recvTrace, dif_neg hlt]
        rw [show streamRun [RecvResult.closed] = ([], true) from rfl]
        rw [List.drop_eq_nil_of_le
          (le_trans (by omega) (le_max_left s (published.length - cap)))]

/-- C7: the listen-stream loop over a subscriber's recv trace: on the
bounded broadcast channel a subscriber that starts at cursor `s`
over the published sequence receives, silently skipping the lag
notification, exactly the suffix of the events still retained (the
oldest unread beyond the capacity are dropped), and the stream ends
cleanly at channel close; a `Lagged` recv never ends the stream or
yields an error, and the stream never ends before `Closed` is
received. -/
theorem route_listen_stream_spec :
    (∀ (cap : Nat) (published : List RouteChange) (s : Nat),
      streamRun (recvTrace cap published s) =
        (published.drop (max s (published.length - cap)), true)) ∧
    (∀ (n : Nat) (trace : List RecvResult),
      streamRun (.lagged n :: trace) = streamRun trace) ∧
    (∀ trace : List RecvResult, RecvResult.closed ∉ trace →
      (streamRun trace).2 = false) :=
  ⟨fun cap published s =>
    streamRun_recvTrace_aux (published.length - s) cap published s le_rfl,
   streamRun_lagged, streamRun_no_closed⟩

/-- Witness for C7: a pending trace — one lag notification and one
event, no close — on which the stream has not ended. -/
theorem route_listen_stream_witness :
    (RecvResult.closed ∉
      [RecvResult.lagged 1,
       RecvResult.ok (RouteChange.Add
         { destination := .v4 1, prefix_len := 0, source := none,
           source_prefix_len := 0, source_hint := none, gateway := none,
           ifindex := none, table := 254, metric := none })]) ∧
    (streamRun
      [RecvResult.lagged 1,
       RecvResult.ok (RouteChange.Add
         { destination := .v4 1, prefix_len := 0, source := none,
           source_prefix_len := 0, source_hint := none, gateway := none,
           ifindex := none, table := 254, metric := none })]).2 = false :=
  ⟨by decide, route_listen_stream_spec.2.2 _ (by decide)⟩

/-- Witness for C8 at a fully populated IPv4 route whose table (300)
exceeds the 8-bit header field. -/
theorem add_roundtrip_witness :
    ∃ msg, Handle.add
      { destination := .v4 167772161, prefix_len := 24,
        source := some (.v4 3), source_prefix_len := 16,
        source_hint := some (.v4 4), gateway := some (.v4 5),
        ifindex := some 7, table := 300, metric := some 100 } = .ok msg ∧
      routeFromWire msg = some
        { destination := .v4 167772161, prefix_len := 24,
          source := some (.v4 3), source_prefix_len := 16,
          source_hint := some (.v4 4), gateway := some (.v4 5),
          ifindex := some 7, table := 300, metric := some 100 } :=
  add_roundtrip_spec _ ⟨.v4 5, rfl, rfl⟩ ⟨.v4 3, rfl, rfl⟩
    ⟨.v4 4, rfl, rfl⟩ rfl rfl

end NetRoute
